import Mathlib

/-!
Verification of the MCP transport-detection probe of `install-mcp`
(`detectMcpTransport` and its helpers `legacyProbe`, `contentType`,
`safeFetch`, `readFirstSseEvent` in `bin/run.ts` / `detect-transport.ts`).

The embedding is shallow: the two outbound HTTP exchanges are modelled by an
environment (`FetchEnv`) mapping each request (method and per-method call
index) to either a response or `none`; `none` stands for every failure mode
that `safeFetch` collapses to `null` in the source (network error, timeout,
abort, thrown exception).  The response body handed to `readFirstSseEvent`
is modelled as an optional list of read outcomes: each `reader.read()`
either delivers a decoded text chunk, reports end of stream (`done`), or
throws (`err`); an exhausted list models a read that never settles before
the timeout.  All functions are total, mirroring the source's catch-all
error handling.
-/

/-- Type `McpTransportKind`: the three detection outcomes (`'http' | 'sse' | 'unknown'`). -/
inductive McpTransportKind : Type
  | http
  | sse
  | unknown
  deriving DecidableEq, Repr

/-- Type `FirstSseEvent`: the parsed first frame (`{event?, data?, id?}`). -/
structure FirstSseEvent : Type where
  event : Option String := none
  data : Option String := none
  id : Option String := none
  deriving DecidableEq, Repr

/-- One outcome of `reader.read()` on the response body stream. -/
inductive ReadResult : Type
  | chunk (s : String)
  | done
  | err
  deriving DecidableEq, Repr

/-- HTTP method of an outbound request (the probe only issues POST and GET). -/
inductive Method : Type
  | post
  | get
  deriving DecidableEq, Repr

/-- A response as the probe observes it: `status`, the raw `content-type`
header (`none` when absent), and the body stream handed to the SSE reader
(`none` models `res.body === null`). -/
structure HttpResponse : Type where
  status : Nat
  contentTypeHeader : Option String
  body : Option (List ReadResult)
  deriving DecidableEq, Repr

/-- Ghost record of one outbound request: its method and, for the POST, the
serialized JSON-RPC body. -/
structure Request : Type where
  method : Method
  body : Option String
  deriving DecidableEq, Repr

/-- The network environment: the response (or `safeFetch`-style `null`) for
the `i`-th outbound request with the given method within one detection call. -/
structure FetchEnv : Type where
  respond : Method → Nat → Option HttpResponse

/-- Model of `safeFetch(url, init, timeoutMs)`: returns the response, or `null` on any
failure (timeout, network error, thrown exception) — modelled by the
environment's answer for this call. -/
def safeFetch (env : FetchEnv) (m : Method) (i : Nat) : Option HttpResponse :=
  env.respond m i

/-- Build an environment from the POST answer and the GET answers
(indexed by GET call count within the detection call). -/
def envOf (p : Option HttpResponse) (g : Nat → Option HttpResponse) : FetchEnv :=
  ⟨fun m i => match m with
    | Method.post => p
    | Method.get => g i⟩

/-- Everything strictly before the first `';'` (`raw.split(';')[0]`). -/
def beforeSemi : List Char → List Char
  | [] => []
  | c :: rest => if c = ';' then [] else c :: beforeSemi rest

/-- JavaScript `String.prototype.trim()` on a character list. -/
def trimChars (l : List Char) : List Char :=
  ((l.dropWhile Char.isWhitespace).reverse.dropWhile Char.isWhitespace).reverse

/-- JavaScript `String.prototype.trim()`. -/
def jsTrim (s : String) : String :=
  String.mk (trimChars s.toList)

/-- Helper `contentType(raw)`: `raw.split(';')[0]?.trim().toLowerCase()`, with the
empty result collapsed to `undefined` (`semi || undefined`). -/
def contentType (raw : Option String) : Option String :=
  match raw with
  | none => none
  | some s =>
    let semi := String.mk ((trimChars (beforeSemi s.toList)).map Char.toLower)
    if semi = "" then none else some semi

/-- Split a character buffer at the first occurrence of `"\n\n"`
(`buf.indexOf('\n\n')`): the part strictly before the two newlines and the
part strictly after them (`buf.slice(0, idx)` and `buf.slice(idx + 2)`). -/
def splitAtDoubleNL : List Char → Option (List Char × List Char)
  | [] => none
  | [_] => none
  | c1 :: c2 :: rest =>
    if c1 = '\n' ∧ c2 = '\n' then some ([], rest)
    else (splitAtDoubleNL (c2 :: rest)).map (fun p => (c1 :: p.1, p.2))

/-- Split a character buffer at the first `':'` (`line.indexOf(':')` with the
two `line.slice`s); `none` when the line has no colon. -/
def splitAtColon : List Char → Option (List Char × List Char)
  | [] => none
  | c :: rest =>
    if c = ':' then some ([], rest)
    else (splitAtColon rest).map (fun p => (c :: p.1, p.2))

/-- Split a frame into lines exactly as `frame.split(/\r?\n/)` does: a line
terminator is an `'\n'`, optionally consuming one `'\r'` immediately before
it; a `'\r'` not followed by `'\n'` stays inside the line (in particular a
frame-final `'\r'` is kept). -/
def splitLines : List Char → List (List Char)
  | [] => [[]]
  | '\r' :: '\n' :: rest => [] :: splitLines rest
  | '\n' :: rest => [] :: splitLines rest
  | c :: rest =>
    match splitLines rest with
    | [] => [[c]]
    | l :: ls => (c :: l) :: ls

/-- Process one line of an SSE frame, updating the `event` record and the
`dataLines` accumulator exactly as the source loop body does: skip comment
lines starting with `':'`, split at the first `':'` (field = left part
trimmed, value = right part with leading whitespace removed by
`.replace(/^\s*/, '')`; a colon-free line is all field, empty value), and
record only the `event`, `data` and `id` fields. -/
def processLine (ev : FirstSseEvent) (dataLines : List String) (line : List Char) :
    FirstSseEvent × List String :=
  if line.head? = some ':' then (ev, dataLines)
  else
    let fv :=
      match splitAtColon line with
      | none => (line, ([] : List Char))
      | some p => (p.1, p.2.dropWhile Char.isWhitespace)
    let field := String.mk (trimChars fv.1)
    let valueStr := String.mk fv.2
    if field = "event" then ({ ev with event := some valueStr }, dataLines)
    else if field = "data" then (ev, dataLines ++ [valueStr])
    else if field = "id" then ({ ev with id := some valueStr }, dataLines)
    else (ev, dataLines)

/-- Parse a single complete SSE frame (the text before the blank line):
split into lines, process each line, then join the collected `data` lines
with `'\n'` (only when at least one was seen). -/
def parseFrame (frame : List Char) : FirstSseEvent :=
  let lines := splitLines frame
  let r := lines.foldl (fun p line => processLine p.1 p.2 line) (⟨none, none, none⟩, [])
  if r.2.isEmpty then r.1
  else { r.1 with data := some (String.intercalate ("\n") r.2) }

/-- The read loop of `readFirstSseEvent`: accumulate decoded chunks into the
buffer; as soon as the buffer contains a blank line, parse the text before it
and return.  End of stream (`done`), a read exception, or a read that never
settles before the timeout (exhausted outcome list) all yield `none`. -/
def readLoop (buf : List Char) : List ReadResult → Option FirstSseEvent
  | [] => none
  | ReadResult.done :: _ => none
  | ReadResult.err :: _ => none
  | ReadResult.chunk s :: rest =>
    match splitAtDoubleNL (buf ++ s.toList) with
    | some p => some (parseFrame p.1)
    | none => readLoop (buf ++ s.toList) rest

/-- Model of `readFirstSseEvent(res, timeoutMs)`: `null` when the response has no
body, otherwise run the read loop on the stream with an empty buffer. -/
def readFirstSseEvent (body : Option (List ReadResult)) : Option FirstSseEvent :=
  match body with
  | none => none
  | some reads => readLoop [] reads

/-- The `JSON.stringify(initReq)` body for the initialize request built with
`id = init-${Date.now()}`; `now` models the `Date.now()` reading. -/
def initBody (now : Nat) : String :=
  "\x7b\"jsonrpc\":\"2.0\",\"id\":\"init-" ++ toString now ++ "\",\"method\":\"initialize\"\x7d"

/-- Model of `legacyProbe(baseUrl, timeoutMs, extraHeaders)`: issue the GET (`gi` is
this GET's call index within the detection call) and classify:
no response → `unknown`; status 405 → `http`; content-type other than
`text/event-stream` → `unknown`; no first frame → `unknown`; first frame's
`event` field (defaulted to the empty string) trimmed equal to `endpoint`
→ `sse`; otherwise `http`. -/
def legacyProbe (env : FetchEnv) (gi : Nat) : McpTransportKind :=
  match safeFetch env Method.get gi with
  | none => McpTransportKind.unknown
  | some getRes =>
    if getRes.status = 405 then McpTransportKind.http
    else
      let ct := contentType getRes.contentTypeHeader
      if ct ≠ some "text/event-stream" then McpTransportKind.unknown
      else
        match readFirstSseEvent getRes.body with
        | none => McpTransportKind.unknown
        | some first =>
          if jsTrim (first.event.getD ("")) = "endpoint" then McpTransportKind.sse
          else McpTransportKind.http

/-- Model of `detectMcpTransport(baseUrl, opts)`, instrumented with the ghost list of
outbound requests it performed, in order.  Control flow mirrors the source:
POST the initialize request; on a 2xx response whose normalized content-type
is `application/json` or `text/event-stream`, return `http`; on a definitive
4xx (not 401/403), run the legacy probe and return its answer when definite;
falling through (including after an inconclusive definitive-4xx probe), run
the legacy probe (again) and return its answer when definite; when the POST
got no response, run the legacy probe once; otherwise return `unknown`. -/
def detectMcpTransport (env : FetchEnv) (now : Nat) : McpTransportKind × List Request :=
  let postReq : Request := ⟨Method.post, some (initBody now)⟩
  let getReq : Request := ⟨Method.get, none⟩
  match safeFetch env Method.post 0 with
  | some postRes =>
    let ct := contentType postRes.contentTypeHeader
    if (200 ≤ postRes.status ∧ postRes.status ≤ 299) ∧
        (ct = some "application/json" ∨ ct = some "text/event-stream") then
      (McpTransportKind.http, [postReq])
    else if 400 ≤ postRes.status ∧ postRes.status < 500 ∧
        postRes.status ≠ 401 ∧ postRes.status ≠ 403 then
      let legacy := legacyProbe env 0
      if legacy ≠ McpTransportKind.unknown then (legacy, [postReq, getReq])
      else
        let legacyFallback := legacyProbe env 1
        if legacyFallback ≠ McpTransportKind.unknown then
          (legacyFallback, [postReq, getReq, getReq])
        else (McpTransportKind.unknown, [postReq, getReq, getReq])
    else
      let legacyFallback := legacyProbe env 0
      if legacyFallback ≠ McpTransportKind.unknown then (legacyFallback, [postReq, getReq])
      else (McpTransportKind.unknown, [postReq, getReq])
  | none =>
    let legacy := legacyProbe env 0
    if legacy ≠ McpTransportKind.unknown then (legacy, [postReq, getReq])
    else (McpTransportKind.unknown, [postReq, getReq])

/-- Number of requests with the given method in a ghost request log. -/
def countMethod (m : Method) (log : List Request) : Nat :=
  (log.filter (fun r => decide (r.method = m))).length

/-! ### Helper lemmas -/

theorem legacyProbe_of_none (env : FetchEnv) (gi : Nat)
    (h : safeFetch env Method.get gi = none) :
    legacyProbe env gi = McpTransportKind.unknown := by
  simp [legacyProbe, h]

theorem legacyProbe_of_405 (env : FetchEnv) (gi : Nat) (r : HttpResponse)
    (h : safeFetch env Method.get gi = some r) (h405 : r.status = 405) :
    legacyProbe env gi = McpTransportKind.http := by
  simp [legacyProbe, h, h405]

theorem detect_of_postNone (env : FetchEnv) (now : Nat)
    (h : safeFetch env Method.post 0 = none) :
    detectMcpTransport env now =
      (legacyProbe env 0, [⟨Method.post, some (initBody now)⟩, ⟨Method.get, none⟩]) := by
  simp only [detectMcpTransport, h]
  by_cases hl : legacyProbe env 0 = McpTransportKind.unknown <;> simp [hl]

theorem detect_fallthrough (env : FetchEnv) (now : Nat) (r : HttpResponse)
    (h : safeFetch env Method.post 0 = some r)
    (h1 : ¬ ((200 ≤ r.status ∧ r.status ≤ 299) ∧
        (contentType r.contentTypeHeader = some "application/json" ∨
         contentType r.contentTypeHeader = some "text/event-stream")))
    (h2 : ¬ (400 ≤ r.status ∧ r.status < 500 ∧ r.status ≠ 401 ∧ r.status ≠ 403)) :
    detectMcpTransport env now =
      (legacyProbe env 0, [⟨Method.post, some (initBody now)⟩, ⟨Method.get, none⟩]) := by
  simp only [detectMcpTransport, h]
  rw [if_neg h1, if_neg h2]
  by_cases hl : legacyProbe env 0 = McpTransportKind.unknown <;> simp [hl]

/-! ### Claim theorems -/

/-- C1: for every base URL / headers / timeout (absorbed into the environment)
and every behavior of the two HTTP exchanges and the event stream, the
detection operation is total — it never propagates an error and its result is
one of `http`, `sse`, `unknown`. -/
theorem detectMcpTransport_total (env : FetchEnv) (now : Nat) :
    (detectMcpTransport env now).1 = McpTransportKind.http ∨
    (detectMcpTransport env now).1 = McpTransportKind.sse ∨
    (detectMcpTransport env now).1 = McpTransportKind.unknown := by
  cases h : (detectMcpTransport env now).1 <;> simp

/-- C3: a POST response with 2xx status and normalized content-type
`application/json` or `text/event-stream` makes detection return `http`
immediately, with the POST as the only outbound request — no GET is ever
attempted, regardless of how the environment would answer a GET. -/
theorem detect_http_on_ok_post (g : Nat → Option HttpResponse) (now : Nat) (r : HttpResponse)
    (hok : 200 ≤ r.status ∧ r.status ≤ 299)
    (hct : contentType r.contentTypeHeader = some "application/json" ∨
           contentType r.contentTypeHeader = some "text/event-stream") :
    detectMcpTransport (envOf (some r) g) now =
      (McpTransportKind.http, [⟨Method.post, some (initBody now)⟩]) ∧
    countMethod Method.get (detectMcpTransport (envOf (some r) g) now).2 = 0 := by
  have hpost : safeFetch (envOf (some r) g) Method.post 0 = some r := rfl
  have h1 : detectMcpTransport (envOf (some r) g) now =
      (McpTransportKind.http, [⟨Method.post, some (initBody now)⟩]) := by
    simp only [detectMcpTransport, hpost]
    rw [if_pos ⟨hok, hct⟩]
  exact ⟨h1, by rw [h1]; rfl⟩

theorem detect_http_on_ok_post_witness :
    detectMcpTransport (envOf (some ⟨200, some ("application/json"), none⟩) (fun _ => none)) 0 =
      (McpTransportKind.http, [⟨Method.post, some (initBody 0)⟩]) ∧
    countMethod Method.get
      ((detectMcpTransport (envOf (some ⟨200, some ("application/json"), none⟩)
        (fun _ => none)) 0).2) = 0 :=
  detect_http_on_ok_post (fun _ => none) 0 ⟨200, some ("application/json"), none⟩
    (by decide) (Or.inl (by decide))

/-- C5: when the POST gets no response the GET legacy probe still runs:
a GET answering exactly 405 yields `http`, and a GET that also gets no
response yields `unknown`. -/
theorem detect_post_down (now : Nat) :
    (∀ (g : Nat → Option HttpResponse) (r : HttpResponse), g 0 = some r → r.status = 405 →
      (detectMcpTransport (envOf none g) now).1 = McpTransportKind.http) ∧
    (∀ (g : Nat → Option HttpResponse), g 0 = none →
      (detectMcpTransport (envOf none g) now).1 = McpTransportKind.unknown) := by
  constructor
  · intro g r hg h405
    rw [detect_of_postNone (envOf none g) now rfl]
    exact legacyProbe_of_405 (envOf none g) 0 r hg h405
  · intro g hg
    rw [detect_of_postNone (envOf none g) now rfl]
    exact legacyProbe_of_none (envOf none g) 0 hg

theorem detect_post_down_witness :
    (detectMcpTransport (envOf none (fun _ => some ⟨405, none, none⟩)) 0).1 =
      McpTransportKind.http ∧
    (detectMcpTransport (envOf none (fun _ => none)) 0).1 = McpTransportKind.unknown :=
  ⟨(detect_post_down 0).1 (fun _ => some ⟨405, none, none⟩) ⟨405, none, none⟩ rfl rfl,
   (detect_post_down 0).2 (fun _ => none) rfl⟩

/-- C6: a POST answered with status 401 does not take the definite-rejection
branch (the log shows exactly one GET, where an inconclusive definite-4xx
branch would show two), yet the GET legacy probe is still attempted, and the
overall result is exactly the probe's answer — in particular `unknown` only
when the probe itself was inconclusive, never by short-circuiting. -/
theorem detect_401_falls_back (env : FetchEnv) (now : Nat) (r : HttpResponse)
    (hpost : safeFetch env Method.post 0 = some r) (h401 : r.status = 401) :
    detectMcpTransport env now =
      (legacyProbe env 0, [⟨Method.post, some (initBody now)⟩, ⟨Method.get, none⟩]) ∧
    countMethod Method.get (detectMcpTransport env now).2 = 1 ∧
    (legacyProbe env 0 = McpTransportKind.unknown →
      (detectMcpTransport env now).1 = McpTransportKind.unknown) := by
  have h1 : detectMcpTransport env now =
      (legacyProbe env 0, [⟨Method.post, some (initBody now)⟩, ⟨Method.get, none⟩]) := by
    refine detect_fallthrough env now r hpost ?_ ?_
    · rintro ⟨⟨-, hle⟩, -⟩
      rw [h401] at hle
      omega
    · rintro ⟨-, -, hne, -⟩
      exact hne h401
  refine ⟨h1, by rw [h1]; rfl, fun hu => by rw [h1, hu]⟩

theorem detect_401_falls_back_witness :
    detectMcpTransport (envOf (some ⟨401, none, none⟩) (fun _ => none)) 0 =
      (legacyProbe (envOf (some ⟨401, none, none⟩) (fun _ => none)) 0,
       [⟨Method.post, some (initBody 0)⟩, ⟨Method.get, none⟩]) ∧
    (detectMcpTransport (envOf (some ⟨401, none, none⟩) (fun _ => none)) 0).1 =
      McpTransportKind.unknown :=
  ⟨(detect_401_falls_back (envOf (some ⟨401, none, none⟩) (fun _ => none)) 0
      ⟨401, none, none⟩ rfl rfl).1,
   (detect_401_falls_back (envOf (some ⟨401, none, none⟩) (fun _ => none)) 0
      ⟨401, none, none⟩ rfl rfl).2.2 rfl⟩

/-- C10: the detection outcome never depends on the time-derived JSON-RPC
request id — two calls differing only in the `Date.now()` reading classify
identically (the server answers are held equal by the environment), and even
the request logs agree on methods; only the POST body differs. -/
theorem detect_independent_of_id (env : FetchEnv) (now1 now2 : Nat) :
    (detectMcpTransport env now1).1 = (detectMcpTransport env now2).1 ∧
    ((detectMcpTransport env now1).2.map Request.method) =
      ((detectMcpTransport env now2).2.map Request.method) := by
  constructor <;>
  · simp only [detectMcpTransport]
    cases h : safeFetch env Method.post 0 <;> simp only [h] <;> split_ifs <;> rfl

theorem splitAtDoubleNL_isSome_of_boundary (f r : List Char) :
    (splitAtDoubleNL (f ++ '\n' :: '\n' :: r)).isSome = true := by
  induction f with
  | nil => simp [splitAtDoubleNL]
  | cons c f' ih =>
    cases f' with
    | nil =>
      simp only [List.nil_append] at ih
      simp only [List.cons_append, List.nil_append, splitAtDoubleNL]
      split
      · simp
      · cases h : splitAtDoubleNL ('\n' :: '\n' :: r) <;> simp [h] at ih ⊢
    | cons d f'' =>
      simp only [List.cons_append] at ih ⊢
      simp only [splitAtDoubleNL]
      split
      · simp
      · cases h : splitAtDoubleNL (d :: (f'' ++ '\n' :: '\n' :: r)) <;> simp [h] at ih ⊢

/-- C4: when the GET probe receives a response (with a status other than the
405 early-out) whose normalized content-type is `text/event-stream` and the
first SSE frame is read successfully, the probe classifies `sse` exactly when
the frame's `event` field (defaulted to the empty string), trimmed, equals
`endpoint`, and `http` otherwise; the detection call whose POST got no answer
returns exactly this classification. -/
theorem legacyProbe_classifies (env : FetchEnv) (gi : Nat) (r : HttpResponse)
    (ev : FirstSseEvent)
    (hget : safeFetch env Method.get gi = some r)
    (h405 : r.status ≠ 405)
    (hct : contentType r.contentTypeHeader = some "text/event-stream")
    (hread : readFirstSseEvent r.body = some ev) :
    legacyProbe env gi =
      (if jsTrim (ev.event.getD ("")) = "endpoint" then McpTransportKind.sse
       else McpTransportKind.http) ∧
    (safeFetch env Method.post 0 = none → gi = 0 →
      (detectMcpTransport env 0).1 =
        (if jsTrim (ev.event.getD ("")) = "endpoint" then McpTransportKind.sse
         else McpTransportKind.http)) := by
  have h1 : legacyProbe env gi =
      (if jsTrim (ev.event.getD ("")) = "endpoint" then McpTransportKind.sse
       else McpTransportKind.http) := by
    simp [legacyProbe, hget, h405, hct, hread]
  refine ⟨h1, fun hpost hgi => ?_⟩
  rw [detect_of_postNone env 0 hpost]
  rw [← hgi, h1]

theorem legacyProbe_classifies_witness :
    legacyProbe
      (envOf none (fun _ =>
        some ⟨200, some ("text/event-stream"),
          some [ReadResult.chunk ("event: endpoint\n\n")]⟩)) 0 = McpTransportKind.sse :=
  ((legacyProbe_classifies
      (envOf none (fun _ =>
        some ⟨200, some ("text/event-stream"),
          some [ReadResult.chunk ("event: endpoint\n\n")]⟩)) 0
      ⟨200, some ("text/event-stream"), some [ReadResult.chunk ("event: endpoint\n\n")]⟩
      ⟨some ("endpoint"), none, none⟩ rfl (by decide) rfl rfl).1).trans (by decide)

/-- C7: parsing the raw stream text
`"event: endpoint\ndata: line1\ndata: line2\n\n"` yields the frame with
`event = "endpoint"` and `data = "line1\nline2"` (the two data lines joined
by a newline), returning as soon as the blank line is seen — any further
stream content is never consumed — and a `':'`-prefixed comment line is
ignored while the other fields of its frame are still included. -/
theorem readFirstSseEvent_example :
    (∀ rest : List ReadResult,
      readFirstSseEvent
        (some (ReadResult.chunk ("event: endpoint\ndata: line1\ndata: line2\n\n") :: rest)) =
        some ⟨some ("endpoint"), some ("line1\nline2"), none⟩) ∧
    readFirstSseEvent (some [ReadResult.chunk ("event: endpoint\n: a comment\ndata: x\n\n")]) =
      some ⟨some ("endpoint"), some ("x"), none⟩ :=
  ⟨fun _ => rfl, rfl⟩

/-- C8 counterexample: a buffer whose blank line is CRLF-delimited
(`"\r\n\r\n"`) does *not* mark a frame boundary — the reader finds no frame
and yields `none` — while the same frame with `"\n\n"` is parsed. -/
theorem crlf_blank_line_not_boundary :
    readFirstSseEvent (some [ReadResult.chunk ("event: endpoint\r\n\r\n"), ReadResult.done]) =
      none ∧
    readFirstSseEvent (some [ReadResult.chunk ("event: endpoint\n\n")]) =
      some ⟨some ("endpoint"), none, none⟩ :=
  ⟨rfl, rfl⟩

/-- C8 amended: the reader recognizes a frame boundary exactly at two
consecutive LF characters: any buffer containing `"\n\n"` yields a frame
split, but a fully CRLF-delimited blank line (`"\r\n\r\n"`) is not a
boundary; a `"\r\n\n"` buffer does end a frame at its `"\n\n"`, yet the
frame-final `'\r'` is kept in the parsed field value, since
`split(/\r?\n/)` removes a `'\r'` only when an `'\n'` follows it. -/
theorem boundary_is_double_lf :
    (∀ f r : List Char, (splitAtDoubleNL (f ++ '\n' :: '\n' :: r)).isSome = true) ∧
    readFirstSseEvent (some [ReadResult.chunk ("event: endpoint\r\n\r\n"), ReadResult.done]) =
      none ∧
    readFirstSseEvent (some [ReadResult.chunk ("event: endpoint\r\n\n")]) =
      some ⟨some ("endpoint\r"), none, none⟩ :=
  ⟨splitAtDoubleNL_isSome_of_boundary, rfl, rfl⟩

/-- C9 counterexample: on the line `"data:  x"` (two spaces after the colon)
the reader strips *all* leading whitespace from the field value, producing
`"x"` — not `" x"` as the at-most-one-space rule would give. -/
theorem data_value_two_spaces :
    readFirstSseEvent (some [ReadResult.chunk ("data:  x\n\n")]) =
      some ⟨none, some ("x"), none⟩ ∧
    readFirstSseEvent (some [ReadResult.chunk ("data:  x\n\n")]) ≠
      some ⟨none, some (" x"), none⟩ :=
  ⟨rfl, by decide⟩

/-- C9 amended: for a `data` line, the field value is the substring after the
first `':'` with *all* leading whitespace stripped (`.replace(/^\s*/, '')`),
whatever follows the colon. -/
theorem data_value_drops_all_leading_ws (after : List Char) (ev : FirstSseEvent)
    (dl : List String) :
    processLine ev dl (("data:").toList ++ after) =
      (ev, dl ++ [String.mk (after.dropWhile Char.isWhitespace)]) :=
  rfl

/-- C2 counterexample: with a POST answered by a definitive 404 (content-type
`text/plain`) and a GET that never answers, one detection call performs
three outbound requests — the GET legacy probe is issued twice. -/
theorem double_get_probe :
    countMethod Method.get
      ((detectMcpTransport
        (envOf (some ⟨404, some ("text/plain"), none⟩) (fun _ => none)) 0).2) = 2 ∧
    ((detectMcpTransport
        (envOf (some ⟨404, some ("text/plain"), none⟩) (fun _ => none)) 0).2).length = 3 :=
  ⟨rfl, rfl⟩

theorem detect_log_shape (env : FetchEnv) (now : Nat) :
    (detectMcpTransport env now).2 = [⟨Method.post, some (initBody now)⟩] ∨
    (detectMcpTransport env now).2 =
      [⟨Method.post, some (initBody now)⟩, ⟨Method.get, none⟩] ∨
    (detectMcpTransport env now).2 =
      [⟨Method.post, some (initBody now)⟩, ⟨Method.get, none⟩, ⟨Method.get, none⟩] := by
  simp only [detectMcpTransport]
  cases h : safeFetch env Method.post 0 <;> simp only [h] <;> split_ifs <;> simp

/-- C2 amended: one detection call performs at most three outbound requests:
exactly one POST, and at most two GETs — the GET legacy probe can be issued
twice, namely when the POST yields a definitive non-auth 4xx and the first
probe is inconclusive. -/
theorem request_count_bound (env : FetchEnv) (now : Nat) :
    countMethod Method.post (detectMcpTransport env now).2 = 1 ∧
    countMethod Method.get (detectMcpTransport env now).2 ≤ 2 ∧
    (detectMcpTransport env now).2.length ≤ 3 := by
  rcases detect_log_shape env now with h | h | h <;> rw [h] <;>
    exact ⟨rfl, Nat.le_of_sub_eq_zero rfl, Nat.le_of_sub_eq_zero rfl⟩

theorem detectMcpTransport_total_witness :
    (detectMcpTransport (envOf none (fun _ => none)) 0).1 = McpTransportKind.http ∨
    (detectMcpTransport (envOf none (fun _ => none)) 0).1 = McpTransportKind.sse ∨
    (detectMcpTransport (envOf none (fun _ => none)) 0).1 = McpTransportKind.unknown :=
  detectMcpTransport_total (envOf none (fun _ => none)) 0

theorem detect_independent_of_id_witness :
    (detectMcpTransport (envOf none (fun _ => none)) 3).1 =
      (detectMcpTransport (envOf none (fun _ => none)) 7).1 ∧
    ((detectMcpTransport (envOf none (fun _ => none)) 3).2.map Request.method) =
      ((detectMcpTransport (envOf none (fun _ => none)) 7).2.map Request.method) :=
  detect_independent_of_id (envOf none (fun _ => none)) 3 7

theorem readFirstSseEvent_example_witness :
    readFirstSseEvent
      (some (ReadResult.chunk ("event: endpoint\ndata: line1\ndata: line2\n\n") ::
        ([] : List ReadResult))) =
      some ⟨some ("endpoint"), some ("line1\nline2"), none⟩ :=
  readFirstSseEvent_example.1 []

theorem boundary_is_double_lf_witness :
    (splitAtDoubleNL (['a'] ++ '\n' :: '\n' :: ([] : List Char))).isSome = true :=
  boundary_is_double_lf.1 (['a']) []

theorem data_value_drops_all_leading_ws_witness :
    processLine ⟨none, none, none⟩ [] (("data:").toList ++ ("  x").toList) =
      (⟨none, none, none⟩, ["x"]) :=
  (data_value_drops_all_leading_ws (("  x").toList) ⟨none, none, none⟩ []).trans (by decide)

theorem request_count_bound_witness :
    countMethod Method.post
      ((detectMcpTransport (envOf (some ⟨404, some ("text/plain"), none⟩) (fun _ => none)) 0).2)
      = 1 ∧
    countMethod Method.get
      ((detectMcpTransport (envOf (some ⟨404, some ("text/plain"), none⟩) (fun _ => none)) 0).2)
      ≤ 2 ∧
    ((detectMcpTransport (envOf (some ⟨404, some ("text/plain"), none⟩) (fun _ => none)) 0).2).length
      ≤ 3 :=
  request_count_bound (envOf (some ⟨404, some ("text/plain"), none⟩) (fun _ => none)) 0
